import Mathlib

/-!
Verification of `pybamm/models/submodels/electrode/base_electrode.py`.

The Python code builds symbolic expression trees out of an opaque `PySym`
type provided by the host framework.  We embed those trees as a free
inductive type `PySym`: every operator the module applies to symbols
(`*`, `+`, `-`, `pybamm.average`, `pybamm.BoundaryValue`, `pybamm.Broadcast`,
`pybamm.Concatenation`) becomes a constructor, and the scalar parameters the
module reads from its parameter object become opaque `PySym` values carried by
a `Param` record.  Variable dictionaries are association lists keyed by
strings, with Python-dict update semantics (overwrite in place, append when
new).  Fallible operations (`BaseElectrode.__init__` via the `_domain`
setter, dictionary subscripting) return `Except`.
-/

/-- Symbolic expression trees, as built by the module.  `sym` is an opaque
input symbol of the host framework; `scalar` embeds a Python numeric
constant (the module only ever uses `0`). -/
inductive PySym where
  | sym : String → PySym
  | scalar : Int → PySym
  | add : PySym → PySym → PySym
  | sub : PySym → PySym → PySym
  | mul : PySym → PySym → PySym
  | average : PySym → PySym
  | boundaryValue : PySym → String → PySym
  | broadcast : PySym → List String → PySym
  | concatenation : PySym → PySym → PySym → PySym
deriving DecidableEq, Repr

/-- The scalar parameters of `self.param` read by the module: each is an
opaque symbol owned by the parameter class. -/
structure Param where
  potential_scale : PySym
  U_p_ref : PySym
  U_n_ref : PySym
  i_typ : PySym
deriving DecidableEq, Repr

/-- Errors raised by the module: `pybamm.DomainError` from the `_domain`
setter, and Python's `KeyError` from dictionary subscripting. -/
inductive PybammError where
  | domainError : String → PybammError
  | keyError : String → PybammError
deriving DecidableEq, Repr

/-- A Python variable dictionary: association list from variable names to
symbols. -/
abbrev VarDict := List (String × PySym)

/-- Python `d[k]` as a total lookup returning `Option`. -/
def VarDict.find? : VarDict → String → Option PySym
  | [], _ => none
  | (k2, v) :: rest, k => if k2 = k then some v else VarDict.find? rest k

/-- Overwrite every entry keyed `k` with value `v`, keeping its position. -/
def VarDict.replaceKey : VarDict → String → PySym → VarDict
  | [], _, _ => []
  | (k2, v2) :: rest, k, v =>
    if k2 = k then (k, v) :: VarDict.replaceKey rest k v
    else (k2, v2) :: VarDict.replaceKey rest k v

/-- Python `d.update({k: v})`: overwrite the value at `k` in place if the
key is present, append the new entry otherwise. -/
def VarDict.updateKey (d : VarDict) (k : String) (v : PySym) : VarDict :=
  if (VarDict.find? d k).isSome then
    VarDict.replaceKey d k v
  else
    d ++ [(k, v)]

/-- Python `str.lower()` as used on the ASCII domain tags (character-wise
lowercasing). -/
def pyLower (s : String) : String := String.mk (s.data.map Char.toLower)

/-- The state of a constructed `BaseElectrode`: the parameter object and the
(name-mangled) `__domain` attribute behind the `_domain` property. -/
structure BaseElectrode where
  param : Param
  _domain : String
deriving DecidableEq, Repr

namespace BaseElectrode

/-- The `_domain` property setter: accepts exactly `"Negative"` and
`"Positive"`, raises `pybamm.DomainError` otherwise. -/
def domainSetter (domain : String) : Except PybammError String :=
  if domain = "Negative" ∨ domain = "Positive" then
    Except.ok domain
  else
    Except.error (PybammError.domainError
      ("Domain must be either 'Negative' or 'Positive' not " ++ domain))

/-- `BaseElectrode.__init__(param, domain)`: assigns `self._domain = domain`
through the validating setter; an invalid domain raises before any object is
produced. -/
def init (param : Param) (domain : String) : Except PybammError BaseElectrode :=
  match domainSetter domain with
  | Except.ok d => Except.ok { param := param, _domain := d }
  | Except.error e => Except.error e

/-- `BaseElectrode._get_standard_potential_variables(phi_s)`.  The Python
`if/elif` has no `else` branch: on any other domain the local
`delta_phi_s` is never bound and line 56 would raise `NameError`, which we
model as `none`. -/
def _get_standard_potential_variables (self : BaseElectrode) (phi_s : PySym) :
    Option VarDict :=
  let param := self.param
  let phi_s_av := PySym.average phi_s
  let branch : Option (PySym × PySym × PySym) :=
    if self._domain = "Negative" then
      some (PySym.mul param.potential_scale phi_s,
            PySym.mul param.potential_scale phi_s_av,
            phi_s)
    else if self._domain = "Positive" then
      some (PySym.add (PySym.sub param.U_p_ref param.U_n_ref)
              (PySym.mul param.potential_scale phi_s),
            PySym.add (PySym.sub param.U_p_ref param.U_n_ref)
              (PySym.mul param.potential_scale phi_s_av),
            PySym.sub phi_s (PySym.boundaryValue phi_s "right"))
    else none
  match branch with
  | none => none
  | some (phi_s_dim, phi_s_av_dim, delta_phi_s) =>
    let delta_phi_s_av := PySym.average delta_phi_s
    let delta_phi_s_dim := PySym.mul delta_phi_s param.potential_scale
    let delta_phi_s_av_dim := PySym.mul delta_phi_s_av param.potential_scale
    some [
      (self._domain ++ " electrode potential", phi_s),
      (self._domain ++ " electrode potential [V]", phi_s_dim),
      ("Average " ++ pyLower self._domain ++ " electrode potential", phi_s_av),
      ("Average " ++ pyLower self._domain ++ " electrode potential [V]",
        phi_s_av_dim),
      (self._domain ++ " electrode ohmic losses", delta_phi_s),
      (self._domain ++ " electrode ohmic losses [V]", delta_phi_s_dim),
      ("Average " ++ pyLower self._domain ++ " electrode ohmic losses",
        delta_phi_s_av),
      ("Average " ++ pyLower self._domain ++ " electrode ohmic losses [V]",
        delta_phi_s_av_dim)
    ]

/-- `BaseElectrode._get_standard_current_variables(i_s)`. -/
def _get_standard_current_variables (self : BaseElectrode) (i_s : PySym) :
    VarDict :=
  let param := self.param
  let i_s_dim := PySym.mul param.i_typ i_s
  [ (self._domain ++ " electrode current density", i_s),
    (self._domain ++ " electrode current density [A.m-2]", i_s_dim) ]

/-- `BaseElectrode._get_standard_whole_cell_current_variables(variables)`.
Python subscripting raises `KeyError` on a missing key; the negative key is
read first, then the positive one. -/
def _get_standard_whole_cell_current_variables (vs : VarDict) :
    Except PybammError VarDict :=
  match VarDict.find? vs "Negative electrode current density" with
  | none => Except.error (PybammError.keyError "Negative electrode current density")
  | some i_s_n =>
    let i_s_s := PySym.broadcast (PySym.scalar 0) ["separator"]
    match VarDict.find? vs "Positive electrode current density" with
    | none => Except.error (PybammError.keyError "Positive electrode current density")
    | some i_s_p =>
      let i_s := PySym.concatenation i_s_n i_s_s i_s_p
      Except.ok (VarDict.updateKey vs "Electrode current density" i_s)

end BaseElectrode

/-- A concrete parameter object used by witnesses and counterexamples. -/
def P0 : Param :=
  { potential_scale := PySym.sym "potential_scale",
    U_p_ref := PySym.sym "U_p_ref",
    U_n_ref := PySym.sym "U_n_ref",
    i_typ := PySym.sym "i_typ" }

/-- A concrete variable dictionary holding both electrode current densities,
used by witnesses. -/
def D0 : VarDict :=
  [ ("Negative electrode current density", PySym.sym "A"),
    ("Positive electrode current density", PySym.sym "B") ]

/-! ### Dictionary lemmas -/

theorem VarDict.find?_replace_self (d : VarDict) (k : String) (v : PySym)
    (h : (VarDict.find? d k).isSome) :
    VarDict.find? (VarDict.replaceKey d k v) k = some v := by
  induction d with
  | nil => simp [VarDict.find?] at h
  | cons a t ih =>
    rcases a with ⟨k2, v2⟩
    by_cases hk : k2 = k
    · simp [VarDict.replaceKey, VarDict.find?, hk]
    · simp only [VarDict.find?, hk, if_false] at h
      simpa [VarDict.replaceKey, VarDict.find?, hk] using ih h

theorem VarDict.find?_replace_ne (d : VarDict) (k k2 : String) (v : PySym)
    (h : k2 ≠ k) :
    VarDict.find? (VarDict.replaceKey d k v) k2 = VarDict.find? d k2 := by
  induction d with
  | nil => rfl
  | cons a t ih =>
    rcases a with ⟨k3, v3⟩
    by_cases hk : k3 = k
    · subst hk
      simp [VarDict.replaceKey, VarDict.find?, Ne.symm h, ih]
    · simp [VarDict.replaceKey, VarDict.find?, hk, ih]

theorem VarDict.find?_append_singleton_of_none (d : VarDict) (k : String)
    (v : PySym) (h : VarDict.find? d k = none) :
    VarDict.find? (d ++ [(k, v)]) k = some v := by
  induction d with
  | nil => simp [VarDict.find?]
  | cons a t ih =>
    rcases a with ⟨k2, v2⟩
    by_cases hk : k2 = k
    · simp [VarDict.find?, hk] at h
    · simp only [VarDict.find?, hk, if_false] at h
      simpa [VarDict.find?, hk] using ih h

theorem VarDict.find?_append_singleton_ne (d : VarDict) (k k2 : String)
    (v : PySym) (h : k2 ≠ k) :
    VarDict.find? (d ++ [(k, v)]) k2 = VarDict.find? d k2 := by
  induction d with
  | nil => simp [VarDict.find?, Ne.symm h]
  | cons a t ih =>
    rcases a with ⟨k3, v3⟩
    by_cases hk : k3 = k2 <;> simp [VarDict.find?, hk, ih]

theorem VarDict.find?_updateKey_self (d : VarDict) (k : String) (v : PySym) :
    VarDict.find? (VarDict.updateKey d k v) k = some v := by
  unfold VarDict.updateKey
  by_cases h : (VarDict.find? d k).isSome
  · simpa [h] using VarDict.find?_replace_self d k v h
  · have hn : VarDict.find? d k = none := by
      cases hh : VarDict.find? d k with
      | none => rfl
      | some w => rw [hh] at h; simp at h
    simpa [h] using VarDict.find?_append_singleton_of_none d k v hn

theorem VarDict.find?_updateKey_ne (d : VarDict) (k k2 : String) (v : PySym)
    (h : k2 ≠ k) :
    VarDict.find? (VarDict.updateKey d k v) k2 = VarDict.find? d k2 := by
  unfold VarDict.updateKey
  by_cases hs : (VarDict.find? d k).isSome
  · simpa [hs] using VarDict.find?_replace_ne d k k2 v h
  · simpa [hs] using VarDict.find?_append_singleton_ne d k k2 v h

/-! ### Claim theorems -/

/-- C1: for a `BaseElectrode` with domain `"Negative"`,
`_get_standard_potential_variables phi_s` maps
`"Negative electrode potential [V]"` to `potential_scale * phi_s` and
`"Negative electrode ohmic losses"` to `phi_s` itself, for every parameter
object and every input symbol. -/
theorem C1_negative_potential_and_losses (p : Param) (phi_s : PySym) :
    ∃ vars, BaseElectrode._get_standard_potential_variables
        { param := p, _domain := "Negative" } phi_s = some vars ∧
      VarDict.find? vars "Negative electrode potential [V]" =
        some (PySym.mul p.potential_scale phi_s) ∧
      VarDict.find? vars "Negative electrode ohmic losses" = some phi_s :=
  ⟨_, rfl, rfl, rfl⟩

/-- C2: for a `BaseElectrode` with domain `"Positive"`,
`_get_standard_potential_variables phi_s` maps
`"Positive electrode potential [V]"` to
`(U_p_ref - U_n_ref) + potential_scale * phi_s` and
`"Positive electrode ohmic losses"` to
`phi_s - BoundaryValue(phi_s, "right")`, for every parameter object and
every input symbol. -/
theorem C2_positive_potential_and_losses (p : Param) (phi_s : PySym) :
    ∃ vars, BaseElectrode._get_standard_potential_variables
        { param := p, _domain := "Positive" } phi_s = some vars ∧
      VarDict.find? vars "Positive electrode potential [V]" =
        some (PySym.add (PySym.sub p.U_p_ref p.U_n_ref)
          (PySym.mul p.potential_scale phi_s)) ∧
      VarDict.find? vars "Positive electrode ohmic losses" =
        some (PySym.sub phi_s (PySym.boundaryValue phi_s "right")) :=
  ⟨_, rfl, rfl, rfl⟩

/-- C3: constructing a `BaseElectrode` with any domain string other than
`"Negative"` or `"Positive"` raises `pybamm.DomainError` immediately: the
constructor returns the error and no `BaseElectrode` value, so no partial
state with an invalid domain exists. -/
theorem C3_invalid_domain_raises (p : Param) (d : String)
    (h1 : d ≠ "Negative") (h2 : d ≠ "Positive") :
    BaseElectrode.init p d =
      Except.error (PybammError.domainError
        ("Domain must be either 'Negative' or 'Positive' not " ++ d)) := by
  simp [BaseElectrode.init, BaseElectrode.domainSetter, h1, h2]

/-- Witness for C3 at the concrete domain string `"Middle"`. -/
theorem C3_invalid_domain_raises_witness :
    BaseElectrode.init P0 "Middle" =
      Except.error (PybammError.domainError
        ("Domain must be either 'Negative' or 'Positive' not " ++ "Middle")) :=
  C3_invalid_domain_raises P0 "Middle" (by decide) (by decide)

/-- C8: for every `BaseElectrode` (either domain) and every symbol `i_s`,
`_get_standard_current_variables i_s` returns exactly the two entries
`"<Domain> electrode current density" = i_s` and
`"<Domain> electrode current density [A.m-2]" = i_typ * i_s`. -/
theorem C8_current_variables_exact (self : BaseElectrode) (i_s : PySym) :
    BaseElectrode._get_standard_current_variables self i_s =
      [ (self._domain ++ " electrode current density", i_s),
        (self._domain ++ " electrode current density [A.m-2]",
          PySym.mul self.param.i_typ i_s) ] ∧
    (BaseElectrode._get_standard_current_variables self i_s).length = 2 :=
  ⟨rfl, rfl⟩

/-- C4: whenever the dictionary maps
`"Negative electrode current density"` to `A` and
`"Positive electrode current density"` to `B`,
`_get_standard_whole_cell_current_variables` succeeds and the resulting
dictionary maps `"Electrode current density"` to the concatenation of `A`,
a zero broadcast over the separator, and `B`, in that order. -/
theorem C4_whole_cell_concatenation (vs : VarDict) (A B : PySym)
    (hA : VarDict.find? vs "Negative electrode current density" = some A)
    (hB : VarDict.find? vs "Positive electrode current density" = some B) :
    ∃ vs2, BaseElectrode._get_standard_whole_cell_current_variables vs =
        Except.ok vs2 ∧
      VarDict.find? vs2 "Electrode current density" =
        some (PySym.concatenation A
          (PySym.broadcast (PySym.scalar 0) ["separator"]) B) := by
  have hrun : BaseElectrode._get_standard_whole_cell_current_variables vs =
      Except.ok (VarDict.updateKey vs "Electrode current density"
        (PySym.concatenation A
          (PySym.broadcast (PySym.scalar 0) ["separator"]) B)) := by
    unfold BaseElectrode._get_standard_whole_cell_current_variables
    rw [hA, hB]
  exact ⟨_, hrun, VarDict.find?_updateKey_self vs _ _⟩

/-- Witness for C4 on the concrete dictionary `D0`. -/
theorem C4_whole_cell_concatenation_witness :
    ∃ vs2, BaseElectrode._get_standard_whole_cell_current_variables D0 =
        Except.ok vs2 ∧
      VarDict.find? vs2 "Electrode current density" =
        some (PySym.concatenation (PySym.sym "A")
          (PySym.broadcast (PySym.scalar 0) ["separator"]) (PySym.sym "B")) :=
  C4_whole_cell_concatenation D0 (PySym.sym "A") (PySym.sym "B") rfl rfl

/-- C5: `_get_standard_whole_cell_current_variables` changes only the
`"Electrode current density"` entry: whenever it returns a dictionary, every
other key (in particular the two electrode current densities) is still
mapped to exactly the value it had before the call. -/
theorem C5_whole_cell_frame (vs vs2 : VarDict)
    (h : BaseElectrode._get_standard_whole_cell_current_variables vs =
      Except.ok vs2) :
    ∀ k, k ≠ "Electrode current density" →
      VarDict.find? vs2 k = VarDict.find? vs k := by
  intro k hk
  unfold BaseElectrode._get_standard_whole_cell_current_variables at h
  cases hA : VarDict.find? vs "Negative electrode current density" with
  | none => rw [hA] at h; exact absurd h (by simp)
  | some iN =>
    rw [hA] at h
    cases hB : VarDict.find? vs "Positive electrode current density" with
    | none => rw [hB] at h; exact absurd h (by simp)
    | some iP =>
      rw [hB] at h
      simp only [Except.ok.injEq] at h
      subst h
      exact VarDict.find?_updateKey_ne vs _ k _ hk

/-- Witness for C5 on the concrete dictionary `D0` and the key
`"Negative electrode current density"`. -/
theorem C5_whole_cell_frame_witness :
    VarDict.find?
      (VarDict.updateKey D0 "Electrode current density"
        (PySym.concatenation (PySym.sym "A")
          (PySym.broadcast (PySym.scalar 0) ["separator"]) (PySym.sym "B")))
      "Negative electrode current density" =
      VarDict.find? D0 "Negative electrode current density" :=
  C5_whole_cell_frame D0 _ rfl "Negative electrode current density" (by decide)

/-- C6: calling `_get_standard_whole_cell_current_variables` on a dictionary
missing either electrode current density raises `KeyError` for the missing
key. -/
theorem C6_missing_key_raises (vs : VarDict)
    (h : VarDict.find? vs "Negative electrode current density" = none ∨
      VarDict.find? vs "Positive electrode current density" = none) :
    ∃ k, BaseElectrode._get_standard_whole_cell_current_variables vs =
      Except.error (PybammError.keyError k) := by
  cases hA : VarDict.find? vs "Negative electrode current density" with
  | none =>
    refine ⟨"Negative electrode current density", ?_⟩
    unfold BaseElectrode._get_standard_whole_cell_current_variables
    rw [hA]
  | some iN =>
    have hB : VarDict.find? vs "Positive electrode current density" = none := by
      rcases h with h | h
      · rw [hA] at h; cases h
      · exact h
    refine ⟨"Positive electrode current density", ?_⟩
    unfold BaseElectrode._get_standard_whole_cell_current_variables
    rw [hA, hB]

/-- Witness for C6 on the empty dictionary. -/
theorem C6_missing_key_raises_witness :
    ∃ k, BaseElectrode._get_standard_whole_cell_current_variables [] =
      Except.error (PybammError.keyError k) :=
  C6_missing_key_raises [] (Or.inl rfl)

/-- C7 counterexample: with domain `"Negative"` and input symbol `phi`, the
dimensional potential entry is `potential_scale * phi` and the corresponding
average entry is `potential_scale * average(phi)`; applying the averaging
operator to the dimensional entry gives `average(potential_scale * phi)`,
a different symbol, so the claim fails for the dimensional entries. -/
theorem C7_average_counterexample :
    ((BaseElectrode._get_standard_potential_variables
        { param := P0, _domain := "Negative" } (PySym.sym "phi")).bind
      (fun vars => VarDict.find? vars "Negative electrode potential [V]")).map
        PySym.average ≠
    (BaseElectrode._get_standard_potential_variables
        { param := P0, _domain := "Negative" } (PySym.sym "phi")).bind
      (fun vars =>
        VarDict.find? vars "Average negative electrode potential [V]") := by
  decide

/-- C7 amended: for both domains, applying the averaging operator to the
non-dimensional potential and ohmic-losses entries yields exactly the
corresponding `"Average …"` entries; the dimensional `"Average …"` entries
instead apply the dimensional rescaling outside the average (the average
ohmic-losses `[V]` entry is `average(ohmic losses) * potential_scale`),
rather than being the averaging operator applied to the dimensional
entries. -/
theorem C7_amended_average_entries (p : Param) (phi_s : PySym) (d : String)
    (h : d = "Negative" ∨ d = "Positive") :
    ∃ vars, BaseElectrode._get_standard_potential_variables
        { param := p, _domain := d } phi_s = some vars ∧
      (VarDict.find? vars (d ++ " electrode potential")).map PySym.average =
        VarDict.find? vars ("Average " ++ pyLower d ++ " electrode potential") ∧
      (VarDict.find? vars (d ++ " electrode ohmic losses")).map PySym.average =
        VarDict.find? vars
          ("Average " ++ pyLower d ++ " electrode ohmic losses") ∧
      VarDict.find? vars
          ("Average " ++ pyLower d ++ " electrode ohmic losses [V]") =
        (VarDict.find? vars (d ++ " electrode ohmic losses")).map
          (fun s => PySym.mul (PySym.average s) p.potential_scale) := by
  rcases h with h | h <;> subst h <;> exact ⟨_, rfl, rfl, rfl, rfl⟩

/-- Witness for the amended C7 at domain `"Negative"`. -/
theorem C7_amended_average_entries_witness :
    ∃ vars, BaseElectrode._get_standard_potential_variables
        { param := P0, _domain := "Negative" } (PySym.sym "phi") = some vars ∧
      (VarDict.find? vars ("Negative" ++ " electrode potential")).map
          PySym.average =
        VarDict.find? vars
          ("Average " ++ pyLower "Negative" ++ " electrode potential") ∧
      (VarDict.find? vars ("Negative" ++ " electrode ohmic losses")).map
          PySym.average =
        VarDict.find? vars
          ("Average " ++ pyLower "Negative" ++ " electrode ohmic losses") ∧
      VarDict.find? vars
          ("Average " ++ pyLower "Negative" ++ " electrode ohmic losses [V]") =
        (VarDict.find? vars ("Negative" ++ " electrode ohmic losses")).map
          (fun s => PySym.mul (PySym.average s) P0.potential_scale) :=
  C7_amended_average_entries P0 (PySym.sym "phi") "Negative" (Or.inl rfl)

/-- C9: for both valid domains, `_get_standard_potential_variables` returns
a dictionary of exactly eight entries whose keys are the deterministic
function of the domain tag described by the spec, the `"Average "` keys
using the lower-cased domain name. -/
theorem C9_potential_variable_keys (p : Param) (phi_s : PySym) (d : String)
    (h : d = "Negative" ∨ d = "Positive") :
    ∃ vars, BaseElectrode._get_standard_potential_variables
        { param := p, _domain := d } phi_s = some vars ∧
      vars.map Prod.fst =
        [ d ++ " electrode potential",
          d ++ " electrode potential [V]",
          "Average " ++ pyLower d ++ " electrode potential",
          "Average " ++ pyLower d ++ " electrode potential [V]",
          d ++ " electrode ohmic losses",
          d ++ " electrode ohmic losses [V]",
          "Average " ++ pyLower d ++ " electrode ohmic losses",
          "Average " ++ pyLower d ++ " electrode ohmic losses [V]" ] ∧
      vars.length = 8 := by
  rcases h with h | h <;> subst h <;> exact ⟨_, rfl, rfl, rfl⟩

/-- Witness for C9 at domain `"Positive"`. -/
theorem C9_potential_variable_keys_witness :
    ∃ vars, BaseElectrode._get_standard_potential_variables
        { param := P0, _domain := "Positive" } (PySym.sym "phi") = some vars ∧
      vars.map Prod.fst =
        [ "Positive" ++ " electrode potential",
          "Positive" ++ " electrode potential [V]",
          "Average " ++ pyLower "Positive" ++ " electrode potential",
          "Average " ++ pyLower "Positive" ++ " electrode potential [V]",
          "Positive" ++ " electrode ohmic losses",
          "Positive" ++ " electrode ohmic losses [V]",
          "Average " ++ pyLower "Positive" ++ " electrode ohmic losses",
          "Average " ++ pyLower "Positive" ++ " electrode ohmic losses [V]" ] ∧
      vars.length = 8 :=
  C9_potential_variable_keys P0 (PySym.sym "phi") "Positive" (Or.inr rfl)

/-- C10: every successfully constructed `BaseElectrode` stores a domain that
is exactly `"Negative"` or `"Positive"`, so the two-way branch of
`_get_standard_potential_variables` is exhaustive and the function always
returns a dictionary (the undefined path is unreachable). -/
theorem C10_domain_invariant_and_totality (p : Param) (dom : String)
    (e : BaseElectrode) (h : BaseElectrode.init p dom = Except.ok e) :
    (e._domain = "Negative" ∨ e._domain = "Positive") ∧
      ∀ phi_s,
        (BaseElectrode._get_standard_potential_variables e phi_s).isSome := by
  unfold BaseElectrode.init BaseElectrode.domainSetter at h
  by_cases hd : dom = "Negative" ∨ dom = "Positive"
  · rw [if_pos hd] at h
    simp only [Except.ok.injEq] at h
    subst h
    refine ⟨hd, fun phi_s => ?_⟩
    rcases hd with hd | hd <;> subst hd <;> rfl
  · rw [if_neg hd] at h
    simp at h

/-- Witness for C10 on a concrete successful construction. -/
theorem C10_domain_invariant_and_totality_witness :
    ((({ param := P0, _domain := "Negative" } : BaseElectrode)._domain =
        "Negative" ∨
      ({ param := P0, _domain := "Negative" } : BaseElectrode)._domain =
        "Positive")) ∧
    (BaseElectrode._get_standard_potential_variables
        { param := P0, _domain := "Negative" } (PySym.sym "phi")).isSome :=
  ⟨(C10_domain_invariant_and_totality P0 "Negative"
      { param := P0, _domain := "Negative" } rfl).1,
    (C10_domain_invariant_and_totality P0 "Negative"
      { param := P0, _domain := "Negative" } rfl).2 (PySym.sym "phi")⟩
